import Mathlib

/-!
Shallow embedding of the moonstone MDM focus-enforcement platform.

Source files embedded here:
- `crates/mdm/core/src/enrollment.rs` — identity resolution (`Enrollment::resolve`)
- `crates/mdm/core/src/command.rs` — command/result data types
- `crates/mdm/storage/src/sqlite.rs` — the SQLite store, modelled as a pure
  state machine over an explicit `StoreState`
- `crates/mdm/service/src/nanomdm.rs` — the base check-in / command service
- `crates/mdm/service/src/certauth.rs` — the certificate-pinning wrapper
- `crates/mdm/crypto/src/cert.rs` — `cert_hash`
- `crates/mdm/http/src/api.rs` — the `/v1/enqueue/{ids}` handler
- `crates/focus/agent/src/policy.rs` — schedule and app policy evaluation
- `crates/focus/agent/src/network.rs` — pf rule generation

Machine integers are modelled as `Nat`; byte blobs as `List Nat`; fallible
operations return `Except`. Database tables are lists of rows; SQL filters
and updates are list filters and maps, keeping insertion order (SQLite
`ORDER BY created_at ASC` with ties resolved by scan order is modelled by a
stable minimum scan).
-/

namespace Moonstone

/-! ## String primitives

Rust compares `String`s byte-wise lexicographically; since UTF-8 byte order
coincides with code-point order, this is lexicographic order on the
character sequence, which we implement executably over `String.data`. -/

/-- Lexicographic strict order on character lists (code-point order), the
order underlying Rust's `String: Ord`. -/
def charListLt : List Char → List Char → Bool
  | _, [] => false
  | [], _ :: _ => true
  | a :: as, b :: bs =>
    if a < b then true
    else if a = b then charListLt as bs
    else false

/-- Rust `a <= b` on strings: the negation of `b < a` in the total
lexicographic order. -/
def strLeb (a b : String) : Bool := !(charListLt b.data a.data)

/-- Character-list prefix test (executable). -/
def isPrefixChars : List Char → List Char → Bool
  | [], _ => true
  | _ :: _, [] => false
  | a :: as, b :: bs => a = b && isPrefixChars as bs

/-- Number of (possibly overlapping) occurrences of `pat` in `s`. -/
def countOccs (pat s : String) : Nat :=
  (s.data.tails.filter (fun t => isPrefixChars pat.data t)).length

/-- Rust `str::trim`: drop leading and trailing whitespace. -/
def strTrim (s : String) : String :=
  ⟨((s.data.dropWhile Char.isWhitespace).reverse.dropWhile Char.isWhitespace).reverse⟩

/-- Rust `str::split(sep)` over a character list: split into (possibly
empty) separator-free pieces; always returns at least one piece. -/
def splitOnCharL (sep : Char) : List Char → List (List Char)
  | [] => [[]]
  | c :: cs =>
    let rest := splitOnCharL sep cs
    if c = sep then [] :: rest
    else
      match rest with
      | [] => [[c]]
      | r :: rs => (c :: r) :: rs

/-- Rust `str::split(',')`. -/
def splitOnComma : List Char → List (List Char) := splitOnCharL ','

/-- The character `'0' + d` (for digits `d < 10`). -/
def digitChar (d : Nat) : Char := Char.ofNat (48 + d)

/-- Zero-padded `"HH:MM"` formatting of a wall-clock time, the shape
`chrono`'s `format("%H:%M")` produces and the shape schedule periods are
written in. -/
def fmtHM (h m : Nat) : String :=
  ⟨[digitChar (h / 10), digitChar (h % 10), ':', digitChar (m / 10), digitChar (m % 10)]⟩

/-! ## Identity resolution (`crates/mdm/core/src/enrollment.rs`) -/

/-- `EnrollType` from `enrollment.rs`: the five enrollment flavours.
The spec's "UserChannel" kind is the source's `User` constructor. -/
inductive EnrollType where
  | Device
  | User
  | UserEnrollmentDevice
  | UserEnrollment
  | SharedIpad
deriving DecidableEq, Repr

/-- Raw enrollment fields from check-in messages (`Enrollment` in
`enrollment.rs`); every field is optional. -/
structure Enrollment where
  udid : Option String := none
  user_id : Option String := none
  user_short_name : Option String := none
  user_long_name : Option String := none
  enrollment_id : Option String := none
  enrollment_user_id : Option String := none
deriving DecidableEq, Repr

/-- Resolved enrollment identifier (`EnrollId` in `enrollment.rs`). -/
structure EnrollId where
  enroll_type : EnrollType
  id : String
  parent_id : Option String
deriving DecidableEq, Repr

/-- The static shared-iPad user id constant from `Enrollment::resolve`. -/
def sharedIpadUserId : String := "FFFFFFFF-FFFF-FFFF-FFFF-FFFFFFFFFFFF"

/-- `Enrollment::resolve` from `enrollment.rs`, translated clause by clause:
User-Enrollment fields are examined first, then legacy UDID fields; the
shared-iPad static `UserID` selects `SharedIpad` over `User`. -/
def Enrollment.resolve (e : Enrollment) : Option EnrollId :=
  match e.enrollment_id with
  | some eid =>
    match e.enrollment_user_id with
    | some euid =>
      some { enroll_type := .UserEnrollment
             id := eid ++ ":" ++ euid
             parent_id := some eid }
    | none =>
      some { enroll_type := .UserEnrollmentDevice
             id := eid
             parent_id := none }
  | none =>
    match e.udid with
    | some udid =>
      match e.user_id with
      | some uid =>
        let t : EnrollType := if uid = sharedIpadUserId then .SharedIpad else .User
        some { enroll_type := t
               id := udid ++ ":" ++ uid
               parent_id := some udid }
      | none =>
        some { enroll_type := .Device
               id := udid
               parent_id := none }
    | none => none

/-! ## Focus policy (`crates/focus/agent/src/policy.rs`) -/

/-- A schedule time period (`TimePeriod` in `policy.rs`); `start`/`stop` are
the source's `start`/`end` fields, "HH:MM" strings compared
lexicographically by the source. -/
structure TimePeriod where
  start : String
  stop : String
  days : List Nat
deriving Repr

/-- A schedule (`Schedule` in `policy.rs`). -/
structure Schedule where
  periods : List TimePeriod
deriving Repr

/-- One loop iteration of `Schedule::is_active` for a single period: the day
guard (`continue` when `days` is non-empty and misses the current day), then
the string comparisons, including the midnight-crossing branch. -/
def periodActive (p : TimePeriod) (currentTime : String) (currentDay : Nat) : Bool :=
  (p.days.isEmpty || p.days.contains currentDay) &&
    (if strLeb p.start p.stop then
      strLeb p.start currentTime && strLeb currentTime p.stop
    else
      strLeb p.start currentTime || strLeb currentTime p.stop)

/-- `Schedule::is_active` from `policy.rs`, with the wall clock
(`now.format("%H:%M")`, `now.weekday().num_days_from_sunday()`, so
Sunday = 0 .. Saturday = 6) passed in explicitly. -/
def Schedule.is_active (s : Schedule) (currentTime : String) (currentDay : Nat) : Bool :=
  s.periods.any (fun p => periodActive p currentTime currentDay)

/-- `AppPolicy` from `policy.rs`. -/
inductive AppPolicy where
  | Allowlist (apps : List String)
  | Blocklist (apps : List String)
deriving Repr

/-- `WebsitePolicy` from `policy.rs`. -/
inductive WebsitePolicy where
  | Allowlist (domains : List String)
  | Blocklist (domains : List String)
deriving Repr

/-- The hard-coded `SYSTEM_ESSENTIALS` list from `AppPolicy::is_allowed`. -/
def SYSTEM_ESSENTIALS : List String :=
  [ "com.apple.dock"
  , "com.apple.finder"
  , "com.apple.loginwindow"
  , "com.apple.SecurityAgent"
  , "com.apple.WindowManager"
  , "com.apple.systemuiserver"
  , "com.apple.controlcenter"
  , "com.apple.notificationcenterui" ]

/-- `AppPolicy::is_allowed` from `policy.rs`: system essentials short-circuit
to allowed; otherwise the allowlist requires membership and the blocklist
forbids it. -/
def AppPolicy.is_allowed (p : AppPolicy) (bundle_id : String) : Bool :=
  if SYSTEM_ESSENTIALS.any (fun s => bundle_id = s) then
    true
  else
    match p with
    | .Allowlist apps => apps.any (fun a => a = bundle_id)
    | .Blocklist apps => !(apps.any (fun a => a = bundle_id))

/-! ## pf rule generation (`crates/focus/agent/src/network.rs`) -/

/-- The `for ip in &allowed_ips { rules.push_str(...) }` loop of
`generate_rules` in `crates/focus/agent/src/network.rs` (allowlist arm). -/
def passLines : List String → String
  | [] => ""
  | ip :: rest => ("pass out quick to " ++ ip ++ "\n") ++ passLines rest

/-- The corresponding loop of the blocklist arm. -/
def blockLines : List String → String
  | [] => ""
  | ip :: rest => ("block out quick to " ++ ip ++ "\n") ++ blockLines rest

/-- The pure core of `generate_rules` in `crates/focus/agent/src/network.rs`:
the rule text built from a website policy once the DNS resolution step has
produced its IP list (`resolve_domains` is I/O and is passed in as the
already-resolved list, exactly the value the source threads into the
string-building loop). -/
def generate_rules_resolved (policy : WebsitePolicy) (resolvedIps : List String) : String :=
  match policy with
  | .Allowlist _ =>
      passLines resolvedIps
        ++ "block out quick proto tcp\n"
        ++ "block out quick proto udp\n"
  | .Blocklist _ => blockLines resolvedIps

/-! ## Check-in message and command types (`crates/mdm/core/src`) -/

/-- `Authenticate` check-in message (`checkin.rs`). -/
structure Authenticate where
  enrollment : Enrollment
  topic : String
  build_version : Option String := none
  os_version : Option String := none
  product_name : Option String := none
  serial_number : Option String := none
  device_name : Option String := none
  model : Option String := none
  model_name : Option String := none
  raw : List Nat := []
deriving Repr

/-- `TokenUpdate` check-in message (`checkin.rs`). -/
structure TokenUpdate where
  enrollment : Enrollment
  topic : String
  token : List Nat
  push_magic : String
  unlock_token : Option (List Nat) := none
  awaiting_configuration : Bool := false
  raw : List Nat := []
deriving Repr

/-- `CheckOut` check-in message (`checkin.rs`). -/
structure CheckOut where
  enrollment : Enrollment
  topic : String
  raw : List Nat := []
deriving Repr

/-- `SetBootstrapToken` check-in message (`checkin.rs`). -/
structure SetBootstrapToken where
  enrollment : Enrollment
  bootstrap_token : List Nat
  raw : List Nat := []
deriving Repr

/-- `GetBootstrapToken` check-in message (`checkin.rs`). -/
structure GetBootstrapToken where
  enrollment : Enrollment
  raw : List Nat := []
deriving Repr

/-- `BootstrapTokenResponse` (`checkin.rs`). -/
structure BootstrapTokenResponse where
  bootstrap_token : List Nat
deriving DecidableEq, Repr

/-- `CommandStatus` from `command.rs`: the statuses a device can report.
There is deliberately no `Pending` constructor. -/
inductive CommandStatus where
  | Acknowledged
  | Error
  | CommandFormatError
  | NotNow
  | Idle
deriving DecidableEq, Repr

/-- `Display for CommandStatus` from `command.rs`. -/
def CommandStatus.toString : CommandStatus → String
  | .Acknowledged => "Acknowledged"
  | .Error => "Error"
  | .CommandFormatError => "CommandFormatError"
  | .NotNow => "NotNow"
  | .Idle => "Idle"

/-- `CommandPayload` from `command.rs` (the flattened extra plist fields are
out of scope; the `request_type` discriminator is what the embedded code
reads). -/
structure CommandPayload where
  request_type : String
deriving DecidableEq, Repr

/-- `Command` from `command.rs`. -/
structure Command where
  command_uuid : String
  command : CommandPayload
deriving DecidableEq, Repr

/-- `CommandResults` from `command.rs`: a device's report on a command. -/
structure CommandResults where
  enrollment : Enrollment
  command_uuid : String
  status : CommandStatus
  raw : List Nat := []
deriving Repr

/-- `QueuedCommand` from `command.rs` (`created_at` as an abstract
timestamp). -/
structure QueuedCommand where
  uuid : String
  command : List Nat
  created_at : Nat
deriving DecidableEq, Repr

/-- `Request` from `request.rs`: the request context handed to services. -/
structure Request where
  enroll_id : Option EnrollId := none
  certificate : Option (List Nat) := none
deriving Repr

/-! ## `cert_hash` (`crates/mdm/crypto/src/cert.rs`) -/

/-- `cert_hash` from `cert.rs`: a 32-byte XOR mix,
`result[i % 32] ^= byte.wrapping_add((i / 32) as u8)`, over a `List Nat` of
byte values (wrapping arithmetic is `% 256`). -/
def cert_hash (der : List Nat) : List Nat :=
  (der.enum.foldl
    (fun acc p =>
      let i := p.1
      let b := p.2
      acc.set (i % 32) (Nat.xor (acc.getD (i % 32) 0) ((b + i / 32) % 256)))
    (List.replicate 32 0))

/-! ## The store (`crates/mdm/storage/src/sqlite.rs`)

The SQLite tables become lists of rows kept in insertion order; `WHERE`
clauses become list filters, `UPDATE` a map over matching rows, and
`ORDER BY created_at ASC LIMIT 1` a stable minimum scan. Timestamps
(`chrono::Utc::now()`) and generated UUIDs (`uuid::Uuid::new_v4()`) are
nondeterministic inputs of the real code and are passed in explicitly. -/

/-- A row of the `enrollments` table (`schema.rs` / `models.rs`). -/
structure EnrollmentRow where
  id : String
  enroll_type : EnrollType
  device_id : Option String
  parent_id : Option String
  topic : String
  push_magic : Option String
  push_token : Option (List Nat)
  disabled : Bool
  authenticate_raw : Option (List Nat)
  token_update_raw : Option (List Nat)
  created_at : Nat
  updated_at : Nat
deriving Repr

/-- A row of the `commands` table (`schema.rs`). -/
structure CommandRow where
  enrollment_id : String
  uuid : String
  command : List Nat
  status : String
  result : Option (List Nat)
  created_at : Nat
deriving DecidableEq, Repr

/-- A row of the `cert_auth` table (`schema.rs`): plain inserts, surrogate
integer key, so duplicates are representable. -/
structure CertAuthRow where
  enrollment_id : String
  cert_hash : List Nat
deriving DecidableEq, Repr

/-- `PushInfo` from `mdm_core` as selected by `get_push_info`. -/
structure PushInfo where
  token : List Nat
  push_magic : String
  topic : String
deriving DecidableEq, Repr

/-- The whole database state of `SqliteStorage`. -/
structure StoreState where
  enrollments : List EnrollmentRow := []
  commands : List CommandRow := []
  bootstrap_tokens : List (String × List Nat) := []
  cert_auth : List CertAuthRow := []
deriving Repr

/-- `SELECT ... WHERE enrollments.id = ?` (first match; `id` is the primary
key so at most one row exists). -/
def StoreState.findEnrollment (st : StoreState) (id : String) : Option EnrollmentRow :=
  st.enrollments.find? (fun r => r.id = id)

/-- `store_authenticate` from `sqlite.rs`: delete the enrollment's command
rows, then upsert the enrollment — on conflict only `topic`, `disabled`,
`authenticate_raw` and `updated_at` are replaced (push credentials
survive). -/
def StoreState.store_authenticate (st : StoreState) (id : EnrollId) (msg : Authenticate)
    (now : Nat) : StoreState :=
  let cleared := st.commands.filter (fun r => r.enrollment_id ≠ id.id)
  let enrollments :=
    if (st.enrollments.find? (fun r => r.id = id.id)).isSome then
      st.enrollments.map (fun r =>
        if r.id = id.id then
          { r with topic := msg.topic, disabled := true,
                   authenticate_raw := some msg.raw, updated_at := now }
        else r)
    else
      st.enrollments ++
        [{ id := id.id
           enroll_type := id.enroll_type
           device_id := some id.id
           parent_id := id.parent_id
           topic := msg.topic
           push_magic := none
           push_token := none
           disabled := true
           authenticate_raw := some msg.raw
           token_update_raw := none
           created_at := now
           updated_at := now }]
  { st with commands := cleared, enrollments := enrollments }

/-- `store_token_update` from `sqlite.rs`: `UPDATE` of the enrollment row
(no-op when the row is absent). -/
def StoreState.store_token_update (st : StoreState) (id : EnrollId) (msg : TokenUpdate)
    (now : Nat) : StoreState :=
  { st with
    enrollments := st.enrollments.map (fun r =>
      if r.id = id.id then
        { r with push_magic := some msg.push_magic, push_token := some msg.token,
                 disabled := false, token_update_raw := some msg.raw, updated_at := now }
      else r) }

/-- `disable` from `sqlite.rs`. -/
def StoreState.disable (st : StoreState) (id : EnrollId) : StoreState :=
  { st with
    enrollments := st.enrollments.map (fun r =>
      if r.id = id.id then { r with disabled := true } else r) }

/-- `store_checkout` from `sqlite.rs`: delegates to `disable`. -/
def StoreState.store_checkout (st : StoreState) (id : EnrollId) (_msg : CheckOut) : StoreState :=
  st.disable id

/-- `is_disabled` from `sqlite.rs`: the selected `disabled` column, with the
absent-row case folded to `true` by `unwrap_or(true)`. -/
def StoreState.is_disabled (st : StoreState) (id : EnrollId) : Bool :=
  ((st.findEnrollment id.id).map (fun r => r.disabled)).getD true

/-- `enqueue_command` from `sqlite.rs` with the generated v4 UUID and the
timestamp passed in: insert a `Pending` row and return the row UUID. -/
def StoreState.enqueue_command (st : StoreState) (id : EnrollId) (command : List Nat)
    (uuid : String) (now : Nat) : String × StoreState :=
  (uuid,
   { st with
     commands := st.commands ++
       [{ enrollment_id := id.id
          uuid := uuid
          command := command
          status := "Pending"
          result := none
          created_at := now }] })

/-- The stable minimum scan realizing `ORDER BY created_at ASC ... first()`:
among the already-filtered rows, the earliest `created_at`, ties resolved in
table order. -/
def oldestRow : List CommandRow → Option CommandRow
  | [] => none
  | r :: rs =>
    match oldestRow rs with
    | none => some r
    | some b => if b.created_at < r.created_at then some b else some r

/-- `next_command` from `sqlite.rs`: the oldest `Pending` row of the
enrollment, read-only (the row is *not* marked as delivered). -/
def StoreState.next_command (st : StoreState) (id : EnrollId) : Option QueuedCommand :=
  (oldestRow (st.commands.filter
      (fun r => r.enrollment_id = id.id ∧ r.status = "Pending"))).map
    (fun row => { uuid := row.uuid, command := row.command, created_at := row.created_at })

/-- `store_result` from `sqlite.rs`: `UPDATE` of every row of the enrollment
with the reported UUID, setting `status` to the report's status string and
recording the raw result. -/
def StoreState.store_result (st : StoreState) (id : EnrollId) (results : CommandResults) :
    StoreState :=
  { st with
    commands := st.commands.map (fun r =>
      if r.enrollment_id = id.id ∧ r.uuid = results.command_uuid then
        { r with status := results.status.toString, result := some results.raw }
      else r) }

/-- `clear_queue` from `sqlite.rs`. -/
def StoreState.clear_queue (st : StoreState) (id : EnrollId) : StoreState :=
  { st with commands := st.commands.filter (fun r => r.enrollment_id ≠ id.id) }

/-- `store_bootstrap_token` from `sqlite.rs`: upsert keyed on the
enrollment id. -/
def StoreState.store_bootstrap_token (st : StoreState) (id : EnrollId) (token : List Nat) :
    StoreState :=
  if (st.bootstrap_tokens.find? (fun p => p.1 = id.id)).isSome then
    { st with
      bootstrap_tokens := st.bootstrap_tokens.map (fun p =>
        if p.1 = id.id then (p.1, token) else p) }
  else
    { st with bootstrap_tokens := st.bootstrap_tokens ++ [(id.id, token)] }

/-- `get_bootstrap_token` from `sqlite.rs`. -/
def StoreState.get_bootstrap_token (st : StoreState) (id : EnrollId) : Option (List Nat) :=
  (st.bootstrap_tokens.find? (fun p => p.1 = id.id)).map (fun p => p.2)

/-- `delete_bootstrap_token` from `sqlite.rs`. -/
def StoreState.delete_bootstrap_token (st : StoreState) (id : EnrollId) : StoreState :=
  { st with bootstrap_tokens := st.bootstrap_tokens.filter (fun p => p.1 ≠ id.id) }

/-- `get_push_info` from `sqlite.rs`: the row must exist with
`disabled = false`, and both `push_magic` and `push_token` must be set. -/
def StoreState.get_push_info (st : StoreState) (id : EnrollId) : Option PushInfo :=
  match st.enrollments.find? (fun r => r.id = id.id ∧ r.disabled = false) with
  | none => none
  | some r =>
    match r.push_magic, r.push_token with
    | some magic, some token => some { token := token, push_magic := magic, topic := r.topic }
    | _, _ => none

/-- `associate_cert` from `sqlite.rs`: a plain insert into `cert_auth`. -/
def StoreState.associate_cert (st : StoreState) (id : EnrollId) (hash : List Nat) : StoreState :=
  { st with cert_auth := st.cert_auth ++ [{ enrollment_id := id.id, cert_hash := hash }] }

/-- `has_cert_auth` from `sqlite.rs`: `COUNT(*) > 0` over the matching
rows. -/
def StoreState.has_cert_auth (st : StoreState) (id : EnrollId) (hash : List Nat) : Bool :=
  st.cert_auth.any (fun r => r.enrollment_id = id.id ∧ r.cert_hash = hash)

/-! ## Service layer (`crates/mdm/service/src/nanomdm.rs`, `certauth.rs`)

The services return `color_eyre::Result`; the distinct `bail!`/`eyre!` error
paths of the embedded code become constructors of `ServiceError`. Plist
parsing (`plist::from_bytes`) is I/O-free but library code, so the handlers
take the parser as an explicit function `List Nat → Option Command`. -/

/-- The error paths of the embedded service code: `require_enroll_id`
failure, the two `validate_cert` bails, and command-blob parse failure. -/
inductive ServiceError where
  | missingEnrollId
  | noCertificate
  | certNotAuthorized
  | parseError
deriving DecidableEq, Repr

/-- `NanoMdm::authenticate` from `nanomdm.rs`: require a resolved id, delete
the bootstrap token, then `store_authenticate`. -/
def nano_authenticate (st : StoreState) (req : Request) (msg : Authenticate) (now : Nat) :
    Except ServiceError StoreState :=
  match req.enroll_id with
  | none => .error .missingEnrollId
  | some id => .ok ((st.delete_bootstrap_token id).store_authenticate id msg now)

/-- `NanoMdm::command_and_report_results` from `nanomdm.rs`: require a
resolved id; when the reported `CommandUUID` is non-empty, `store_result`;
then fetch the next pending command, parse its blob, and return it. -/
def nano_command_and_report_results (parse : List Nat → Option Command)
    (st : StoreState) (req : Request) (results : CommandResults) :
    Except ServiceError (Option Command × StoreState) :=
  match req.enroll_id with
  | none => .error .missingEnrollId
  | some id =>
    let st1 := if results.command_uuid ≠ "" then st.store_result id results else st
    match st1.next_command id with
    | none => .ok (none, st1)
    | some queued =>
      match parse queued.command with
      | none => .error .parseError
      | some cmd => .ok (some cmd, st1)

/-- `CertAuthService::validate_cert` from `certauth.rs`: require a resolved
id, require a presented certificate, and require its `cert_hash` to be
associated; otherwise the corresponding error. -/
def validate_cert (st : StoreState) (req : Request) : Except ServiceError EnrollId :=
  match req.enroll_id with
  | none => .error .missingEnrollId
  | some id =>
    match req.certificate with
    | none => .error .noCertificate
    | some cert =>
      if st.has_cert_auth id (cert_hash cert) then .ok id
      else .error .certNotAuthorized

/-- The shape every non-`Authenticate` operation of `CertAuthService` takes:
`validate_cert` first, and only on success the inner service's outcome (the
inner outcome is a parameter, so "inner not invoked" is expressed as the
result being independent of it). -/
def certauth_guard {α : Type} (st : StoreState) (req : Request)
    (inner : Except ServiceError α) : Except ServiceError α :=
  match validate_cert st req with
  | .error e => .error e
  | .ok _ => inner

/-- `CertAuthService::authenticate` from `certauth.rs`: when both a resolved
id and a certificate are present, `associate_cert` the certificate's hash,
then delegate to the inner (`NanoMdm`) `authenticate`. -/
def certauth_authenticate (st : StoreState) (req : Request) (msg : Authenticate) (now : Nat) :
    Except ServiceError StoreState :=
  let st' :=
    match req.enroll_id, req.certificate with
    | some id, some cert => st.associate_cert id (cert_hash cert)
    | _, _ => st
  nano_authenticate st' req msg now

/-! ## Enqueue endpoint (`crates/mdm/http/src/api.rs`) -/

/-- `EnqueueResponse` from `api.rs`. -/
structure EnqueueResponse where
  command_uuid : String
  request_type : String
deriving DecidableEq, Repr

/-- The `for id_str in ids.split(',')` loop of `enqueue_inner`: one
`enqueue_command` per piece, wrapping each trimmed piece as a `Device`
enroll id; `k` threads the supply of generated v4 row UUIDs. -/
def enqueueAll (body : List Nat) (uuids : Nat → String) (now : Nat) :
    StoreState → List String → Nat → StoreState
  | st, [], _ => st
  | st, s :: rest, k =>
    enqueueAll body uuids now
      (st.enqueue_command { enroll_type := .Device, id := s, parent_id := none }
        body (uuids k) now).2
      rest (k + 1)

/-- The rows the enqueue loop appends: one `Pending` row per listed id, in
order, each carrying the raw body and its own row UUID from the supply. -/
def rowsFor (body : List Nat) (uuids : Nat → String) (now : Nat) :
    List String → Nat → List CommandRow
  | [], _ => []
  | s :: rest, k =>
    { enrollment_id := s, uuid := uuids k, command := body, status := "Pending",
      result := none, created_at := now } :: rowsFor body uuids now rest (k + 1)

/-- `enqueue_inner` from `api.rs`: parse the body as a `Command` plist,
enqueue the raw body once per comma-separated (trimmed) id, and answer with
the parsed command's `CommandUUID` and `RequestType`. -/
def enqueue_inner (parse : List Nat → Option Command) (st : StoreState)
    (ids : String) (body : List Nat) (uuids : Nat → String) (now : Nat) :
    Except ServiceError (EnqueueResponse × StoreState) :=
  match parse body with
  | none => .error .parseError
  | some cmd =>
    let pieces := (splitOnComma ids.data).map (fun cs => strTrim ⟨cs⟩)
    let st' := enqueueAll body uuids now st pieces 0
    .ok ({ command_uuid := cmd.command_uuid
           request_type := cmd.command.request_type }, st')

/-! ## Concrete example inputs

Fixed inputs used by witnesses and counterexamples below. -/

/-- The enroll id of device `"ABC"`. -/
def exIdABC : EnrollId := { enroll_type := .Device, id := "ABC", parent_id := none }

/-- A request context resolved to device `"ABC"`, no certificate. -/
def exReqABC : Request := { enroll_id := some exIdABC }

/-- A parser recognising blob `[2]` as command `"U2"`
(`DeviceInformation`). -/
def exParseC5 : List Nat → Option Command := fun b =>
  if b = [2] then
    some { command_uuid := "U2", command := { request_type := "DeviceInformation" } }
  else none

/-- A store with two pending commands `"U1"`, `"U2"` for `"ABC"`. -/
def exStoreC5 : StoreState :=
  { commands := [{ enrollment_id := "ABC", uuid := "U1", command := [1],
                   status := "Pending", result := none, created_at := 0 },
                 { enrollment_id := "ABC", uuid := "U2", command := [2],
                   status := "Pending", result := none, created_at := 1 }] }

/-- An `Acknowledged` report for `"U1"`. -/
def exResC5 : CommandResults :=
  { enrollment := {}, command_uuid := "U1", status := .Acknowledged, raw := [5] }

/-- A parser recognising blob `[1]` as command `"U"`
(`DeviceInformation`). -/
def exParseC1 : List Nat → Option Command := fun b =>
  if b = [1] then
    some { command_uuid := "U", command := { request_type := "DeviceInformation" } }
  else none

/-- A store with the single pending command `"U"` for `"ABC"`. -/
def exStoreC1 : StoreState :=
  { commands := [{ enrollment_id := "ABC", uuid := "U", command := [1],
                   status := "Pending", result := none, created_at := 0 }] }

/-- The idle device poll: empty `CommandUUID`, status `Idle`. -/
def exIdlePoll : CommandResults :=
  { enrollment := {}, command_uuid := "", status := .Idle, raw := [] }

/-- A parser recognising blob `[7]` as a `DeviceInformation` command whose
own `CommandUUID` (from the body plist) is `"BODY-UUID"`. -/
def exParseC8 : List Nat → Option Command := fun b =>
  if b = [7] then
    some { command_uuid := "BODY-UUID", command := { request_type := "DeviceInformation" } }
  else none

/-- A concrete supply of generated row UUIDs. -/
def exUuids : Nat → String := fun k => if k = 0 then "R0" else "R1"

/-! ## Store lemmas -/

/-- `store_authenticate` leaves the bootstrap-token table untouched. -/
theorem store_authenticate_bootstrap (st : StoreState) (id : EnrollId) (msg : Authenticate)
    (now : Nat) :
    (st.store_authenticate id msg now).bootstrap_tokens = st.bootstrap_tokens := by
  rw [StoreState.store_authenticate]

/-- After deleting an enrollment's bootstrap token, reading it yields
nothing. -/
theorem get_bootstrap_token_after_delete (st : StoreState) (id : EnrollId) :
    (st.delete_bootstrap_token id).get_bootstrap_token id = none := by
  rw [StoreState.get_bootstrap_token, StoreState.delete_bootstrap_token]
  have : (st.bootstrap_tokens.filter (fun p => p.1 ≠ id.id)).find? (fun p => p.1 = id.id)
      = none := by
    rw [List.find?_eq_none]
    intro x hx
    have := (List.mem_filter.mp hx).2
    simpa using this
  rw [this]
  rfl

/-- `store_authenticate` leaves no command row for the enrollment. -/
theorem store_authenticate_queue (st : StoreState) (id : EnrollId) (msg : Authenticate)
    (now : Nat) :
    ((st.store_authenticate id msg now).commands.filter
        (fun r => r.enrollment_id = id.id)).length = 0 := by
  rw [StoreState.store_authenticate]
  simp only [List.length_eq_zero]
  rw [List.filter_eq_nil_iff]
  intro r hr
  have := (List.mem_filter.mp hr).2
  simpa using this

/-- The `ON CONFLICT DO UPDATE` arm of `store_authenticate`: mapping the
update function over a row list that contains a matching row finds an
updated (disabled, re-topiced) row. -/
theorem find?_map_auth_update (l : List EnrollmentRow) (idid : String) (msg : Authenticate)
    (now : Nat) (hsome : (l.find? (fun r => r.id = idid)).isSome = true) :
    ∃ row,
      (l.map (fun r =>
          if r.id = idid then
            { r with topic := msg.topic, disabled := true,
                     authenticate_raw := some msg.raw, updated_at := now }
          else r)).find? (fun r => r.id = idid) = some row
        ∧ row.topic = msg.topic ∧ row.disabled = true := by
  induction l with
  | nil => simp at hsome
  | cons a l ih =>
    by_cases ha : a.id = idid
    · refine ⟨{ a with topic := msg.topic, disabled := true, authenticate_raw := some msg.raw, updated_at := now }, ?_, rfl, rfl⟩
      simp only [List.map_cons, if_pos ha, List.find?_cons]
      simp [ha]
    · have hsome' : (l.find? (fun r => r.id = idid)).isSome = true := by
        rw [List.find?_cons] at hsome
        simpa [ha] using hsome
      obtain ⟨row, hrow, ht, hd⟩ := ih hsome'
      refine ⟨row, ?_, ht, hd⟩
      simp only [List.map_cons, if_neg ha, List.find?_cons]
      simpa [ha] using hrow

/-- After `store_authenticate`, the enrollment row exists, carries the
message's topic, and is disabled. -/
theorem findEnrollment_store_authenticate (st : StoreState) (id : EnrollId)
    (msg : Authenticate) (now : Nat) :
    ∃ row, (st.store_authenticate id msg now).findEnrollment id.id = some row
      ∧ row.topic = msg.topic ∧ row.disabled = true := by
  rw [StoreState.store_authenticate, StoreState.findEnrollment]
  by_cases hex : (st.enrollments.find? (fun r => r.id = id.id)).isSome = true
  · simp only [hex, if_true]
    exact find?_map_auth_update st.enrollments id.id msg now hex
  · have hnone : st.enrollments.find? (fun r => r.id = id.id) = none := by
      cases h : st.enrollments.find? (fun r => r.id = id.id) with
      | none => rfl
      | some r => rw [h] at hex; simp at hex
    simp only [hnone, Option.isSome_none, Bool.false_eq_true, if_false]
    rw [List.find?_append, hnone]
    refine ⟨{ id := id.id, enroll_type := id.enroll_type, device_id := some id.id,
              parent_id := id.parent_id, topic := msg.topic, push_magic := none,
              push_token := none, disabled := true, authenticate_raw := some msg.raw,
              token_update_raw := none, created_at := now, updated_at := now }, ?_, rfl, rfl⟩
    simp

/-- Every status a device can report maps to a non-`Pending` status
string. -/
theorem commandStatus_toString_ne_pending (s : CommandStatus) : s.toString ≠ "Pending" := by
  cases s <;> simp [CommandStatus.toString]

/-- The stable minimum scan only returns members of its input. -/
theorem oldestRow_mem : ∀ {l : List CommandRow} {r : CommandRow},
    oldestRow l = some r → r ∈ l := by
  intro l
  induction l with
  | nil => intro r h; simp [oldestRow] at h
  | cons a t ih =>
    intro r h
    rw [oldestRow] at h
    cases ht : oldestRow t with
    | none =>
      simp only [ht] at h
      injection h with h
      subst h
      exact List.mem_cons_self a t
    | some b =>
      simp only [ht] at h
      by_cases hc : b.created_at < a.created_at
      · rw [if_pos hc] at h
        injection h with h
        subst h
        exact List.mem_cons_of_mem a (ih ht)
      · rw [if_neg hc] at h
        injection h with h
        subst h
        exact List.mem_cons_self a t

/-- After `store_result` records a report, `next_command` can never return
the reported UUID again: the update moved every such row out of `Pending`
(no reportable status maps back to `"Pending"`). -/
theorem next_command_after_store_result (st : StoreState) (id : EnrollId)
    (results : CommandResults) (q : QueuedCommand)
    (h : (st.store_result id results).next_command id = some q) :
    q.uuid ≠ results.command_uuid := by
  rw [StoreState.next_command, StoreState.store_result] at h
  cases hrow : oldestRow (((st.commands.map (fun r =>
      if r.enrollment_id = id.id ∧ r.uuid = results.command_uuid then
        { r with status := results.status.toString, result := some results.raw }
      else r))).filter (fun r => r.enrollment_id = id.id ∧ r.status = "Pending")) with
  | none => rw [hrow] at h; simp at h
  | some row =>
    rw [hrow] at h
    injection h with h
    have hmem := oldestRow_mem hrow
    have hpred := (List.mem_filter.mp hmem).2
    have hmem' := (List.mem_filter.mp hmem).1
    obtain ⟨orig, _, horig⟩ := List.mem_map.mp hmem'
    simp only [decide_eq_true_eq] at hpred
    intro hEq
    have huuid : row.uuid = results.command_uuid := by
      rw [← h] at hEq
      simpa using hEq
    by_cases hc : orig.enrollment_id = id.id ∧ orig.uuid = results.command_uuid
    · rw [if_pos hc] at horig
      have : row.status = results.status.toString := by rw [← horig]
      exact commandStatus_toString_ne_pending results.status (by rw [← this, hpred.2])
    · rw [if_neg hc] at horig
      exact hc ⟨by rw [horig]; exact hpred.1, by rw [horig]; exact huuid⟩

/-! ## Time-string order lemmas

`Schedule::is_active` compares `"HH:MM"` strings lexicographically; these
lemmas show that on zero-padded wall-clock strings this is exactly the
minute-of-day order. -/

/-- On digits, `digitChar` preserves strict order. -/
theorem digitChar_lt_iff (a b : Nat) (ha : a < 10) (hb : b < 10) :
    digitChar a < digitChar b ↔ a < b := by
  interval_cases a <;> interval_cases b <;> decide

/-- On digits, `digitChar` is injective. -/
theorem digitChar_eq_iff (a b : Nat) (ha : a < 10) (hb : b < 10) :
    digitChar a = digitChar b ↔ a = b := by
  interval_cases a <;> interval_cases b <;> decide

/-- Unfolding of the lexicographic step. -/
theorem charListLt_cons (a b : Char) (as bs : List Char) :
    charListLt (a :: as) (b :: bs)
      = (if a < b then true else if a = b then charListLt as bs else false) := rfl

/-- Lexicographic comparison of two leading digit characters is numeric
comparison of the two-digit values. -/
theorem charListLt_two_digits (a b c d : Nat) (r1 r2 : List Char)
    (ha : a < 10) (hb : b < 10) (hc : c < 10) (hd : d < 10) :
    charListLt (digitChar a :: digitChar b :: r1) (digitChar c :: digitChar d :: r2)
      = (if 10 * a + b < 10 * c + d then true
         else if 10 * a + b = 10 * c + d then charListLt r1 r2 else false) := by
  rw [charListLt_cons]
  rcases Nat.lt_trichotomy a c with h | h | h
  · rw [if_pos ((digitChar_lt_iff a c ha hc).mpr h), if_pos (by omega)]
  · subst h
    rw [if_neg (fun hlt => by rw [digitChar_lt_iff a a ha ha] at hlt; omega), if_pos rfl,
        charListLt_cons]
    rcases Nat.lt_trichotomy b d with h2 | h2 | h2
    · rw [if_pos ((digitChar_lt_iff b d hb hd).mpr h2), if_pos (by omega)]
    · subst h2
      rw [if_neg (fun hlt => by rw [digitChar_lt_iff b b hb hb] at hlt; omega), if_pos rfl,
          if_neg (by omega), if_pos (by omega)]
    · rw [if_neg (fun hlt => by rw [digitChar_lt_iff b d hb hd] at hlt; omega),
          if_neg (fun hEq => by rw [digitChar_eq_iff b d hb hd] at hEq; omega),
          if_neg (by omega), if_neg (by omega)]
  · rw [if_neg (fun hlt => by rw [digitChar_lt_iff a c ha hc] at hlt; omega),
        if_neg (fun hEq => by rw [digitChar_eq_iff a c ha hc] at hEq; omega),
        if_neg (by omega), if_neg (by omega)]

/-- Lexicographic order on zero-padded `"HH:MM"` strings is the pairwise
(hour, minute) order. -/
theorem charListLt_fmtHM (h1 m1 h2 m2 : Nat)
    (hh1 : h1 < 100) (hm1 : m1 < 100) (hh2 : h2 < 100) (hm2 : m2 < 100) :
    (charListLt (fmtHM h1 m1).data (fmtHM h2 m2).data = true)
      ↔ (h1 < h2 ∨ (h1 = h2 ∧ m1 < m2)) := by
  show charListLt
      [digitChar (h1 / 10), digitChar (h1 % 10), ':', digitChar (m1 / 10), digitChar (m1 % 10)]
      [digitChar (h2 / 10), digitChar (h2 % 10), ':', digitChar (m2 / 10), digitChar (m2 % 10)]
      = true ↔ _
  rw [charListLt_two_digits _ _ _ _ _ _ (by omega) (by omega) (by omega) (by omega)]
  rcases Nat.lt_trichotomy h1 h2 with h | h | h
  · rw [if_pos (by omega)]
    simp [h]
  · subst h
    rw [if_neg (by omega), if_pos (by omega), charListLt_cons,
        if_neg (by decide), if_pos rfl,
        charListLt_two_digits _ _ _ _ _ _ (by omega) (by omega) (by omega) (by omega)]
    rcases Nat.lt_trichotomy m1 m2 with h2 | h2 | h2
    · rw [if_pos (by omega)]
      simp [h2]
    · subst h2
      rw [if_neg (by omega), if_pos (by omega)]
      simp [charListLt]
    · rw [if_neg (by omega), if_neg (by omega)]
      simp
      omega
  · rw [if_neg (by omega), if_neg (by omega)]
    simp
    omega

/-- The Rust string comparison `start <= t` on zero-padded `"HH:MM"`
wall-clock strings is exactly the minute-of-day comparison. -/
theorem strLeb_fmtHM (h1 m1 h2 m2 : Nat)
    (hh1 : h1 < 100) (hm1 : m1 < 60) (hh2 : h2 < 100) (hm2 : m2 < 60) :
    (strLeb (fmtHM h1 m1) (fmtHM h2 m2) = true) ↔ h1 * 60 + m1 ≤ h2 * 60 + m2 := by
  rw [strLeb, Bool.not_eq_true']
  constructor
  · intro hfalse
    by_contra hlt
    push_neg at hlt
    have : charListLt (fmtHM h2 m2).data (fmtHM h1 m1).data = true :=
      (charListLt_fmtHM h2 m2 h1 m1 hh2 (by omega) hh1 (by omega)).mpr (by omega)
    rw [this] at hfalse
    exact absurd hfalse (by simp)
  · intro hle
    cases hb : charListLt (fmtHM h2 m2).data (fmtHM h1 m1).data with
    | false => rfl
    | true =>
      have := (charListLt_fmtHM h2 m2 h1 m1 hh2 (by omega) hh1 (by omega)).mp hb
      omega

/-! # Claims -/

/-- C4: Identity resolution is a pure function implementing the five-pattern
table evaluated top-down with first match winning: `EnrollmentID` +
`EnrollmentUserID` yields `UserEnrollment` with id `"{EID}:{EUID}"` and
parent `EID`; `EnrollmentID` alone yields `UserEnrollmentDevice`; `UDID`
with the static shared-iPad `UserID` yields `SharedIpad`; `UDID` with any
other `UserID` yields the user channel (`User`) with id `"{UDID}:{UserID}"`
and parent `UDID`; `UDID` alone yields `Device`; and resolution fails (no
`EnrollId`) exactly when none of the five patterns match, i.e. when both
`EnrollmentID` and `UDID` are absent. -/
theorem claim_C4 :
    (∀ (e : Enrollment) (eid euid : String),
        e.enrollment_id = some eid → e.enrollment_user_id = some euid →
        e.resolve = some { enroll_type := .UserEnrollment, id := eid ++ ":" ++ euid,
                           parent_id := some eid })
  ∧ (∀ (e : Enrollment) (eid : String),
        e.enrollment_id = some eid → e.enrollment_user_id = none →
        e.resolve = some { enroll_type := .UserEnrollmentDevice, id := eid, parent_id := none })
  ∧ (∀ (e : Enrollment) (u : String),
        e.enrollment_id = none → e.udid = some u → e.user_id = some sharedIpadUserId →
        e.resolve = some { enroll_type := .SharedIpad, id := u ++ ":" ++ sharedIpadUserId,
                           parent_id := some u })
  ∧ (∀ (e : Enrollment) (u uid : String),
        e.enrollment_id = none → e.udid = some u → e.user_id = some uid →
        uid ≠ sharedIpadUserId →
        e.resolve = some { enroll_type := .User, id := u ++ ":" ++ uid, parent_id := some u })
  ∧ (∀ (e : Enrollment) (u : String),
        e.enrollment_id = none → e.udid = some u → e.user_id = none →
        e.resolve = some { enroll_type := .Device, id := u, parent_id := none })
  ∧ (∀ e : Enrollment, e.resolve = none ↔ e.enrollment_id = none ∧ e.udid = none) := by
  refine ⟨?_, ?_, ?_, ?_, ?_, ?_⟩
  · intro e eid euid h1 h2; simp [Enrollment.resolve, h1, h2]
  · intro e eid h1 h2; simp [Enrollment.resolve, h1, h2]
  · intro e u h1 h2 h3; simp [Enrollment.resolve, h1, h2, h3]
  · intro e u uid h1 h2 h3 h4; simp [Enrollment.resolve, h1, h2, h3, h4]
  · intro e u h1 h2 h3; simp [Enrollment.resolve, h1, h2, h3]
  · intro e
    constructor
    · intro h
      cases he : e.enrollment_id with
      | some eid =>
        cases heu : e.enrollment_user_id <;> simp [Enrollment.resolve, he, heu] at h
      | none =>
        cases hu : e.udid with
        | some u => cases hui : e.user_id <;> simp [Enrollment.resolve, he, hu, hui] at h
        | none => simp [he, hu]
    · intro ⟨h1, h2⟩; simp [Enrollment.resolve, h1, h2]

/-- Witness for C4 at concrete inputs: `{EnrollmentID:"E",
EnrollmentUserID:"U"}` resolves to the user enrollment `"E:U"`. -/
theorem claim_C4_witness :
    (Enrollment.mk none none none none (some "E") (some "U")).resolve
      = some { enroll_type := .UserEnrollment, id := "E:U", parent_id := some "E" } :=
  claim_C4.1 _ "E" "U" rfl rfl

/-- C7: for every bundle identifier `s` and allow-set `X`,
`AppPolicy::Allowlist{X}` permits `s` iff `s ∈ X` or `s ∈ SYSTEM_ESSENTIALS`;
and `SYSTEM_ESSENTIALS` members are permitted under every `AppPolicy`,
including any `Blocklist`. -/
theorem claim_C7 :
    (∀ (X : List String) (s : String),
        (AppPolicy.Allowlist X).is_allowed s = true ↔ s ∈ X ∨ s ∈ SYSTEM_ESSENTIALS)
  ∧ (∀ (p : AppPolicy) (s : String), s ∈ SYSTEM_ESSENTIALS → p.is_allowed s = true) := by
  constructor
  · intro X s
    simp only [AppPolicy.is_allowed]
    by_cases h : SYSTEM_ESSENTIALS.any (fun t => s = t) = true
    · rw [if_pos h]
      simp only [List.any_eq_true, decide_eq_true_eq] at h
      obtain ⟨t, ht, hEq⟩ := h
      subst hEq
      simp [ht]
    · rw [if_neg h]
      simp only [List.any_eq_true, decide_eq_true_eq] at h ⊢
      constructor
      · intro hx
        obtain ⟨a, ha, hEq⟩ := hx
        subst hEq
        exact Or.inl ha
      · intro hs
        cases hs with
        | inl hs => exact ⟨s, hs, rfl⟩
        | inr hs => exact absurd ⟨s, hs, rfl⟩ h
  · intro p s hs
    have h : SYSTEM_ESSENTIALS.any (fun t => s = t) = true := by
      simp only [List.any_eq_true, decide_eq_true_eq]
      exact ⟨s, hs, rfl⟩
    simp [AppPolicy.is_allowed, h]

/-- Witness for C7: the allowlist `["com.apple.Terminal"]` permits
`com.apple.Terminal`, and a blocklist naming `com.apple.finder` still
permits it (system essential). -/
theorem claim_C7_witness :
    ((AppPolicy.Allowlist ["com.apple.Terminal"]).is_allowed "com.apple.Terminal" = true
        ↔ ("com.apple.Terminal" ∈ (["com.apple.Terminal"] : List String)
            ∨ "com.apple.Terminal" ∈ SYSTEM_ESSENTIALS))
  ∧ (AppPolicy.Blocklist ["com.apple.finder"]).is_allowed "com.apple.finder" = true :=
  ⟨claim_C7.1 ["com.apple.Terminal"] "com.apple.Terminal",
   claim_C7.2 (AppPolicy.Blocklist ["com.apple.finder"]) "com.apple.finder" (by decide)⟩

/-- C10: for every `EnrollId` whose id has no enrollment row in the store,
`is_disabled` returns `true` rather than an error (the absent-row case is
folded into the disabled state by `unwrap_or(true)`), and such enrollments
are excluded from push targeting (`get_push_info` yields nothing). -/
theorem claim_C10 (st : StoreState) (id : EnrollId)
    (h : st.findEnrollment id.id = none) :
    st.is_disabled id = true ∧ st.get_push_info id = none := by
  constructor
  · rw [StoreState.is_disabled, h]
    rfl
  · rw [StoreState.get_push_info]
    rw [StoreState.findEnrollment] at h
    have hnone : st.enrollments.find? (fun r => r.id = id.id ∧ r.disabled = false) = none := by
      rw [List.find?_eq_none] at h ⊢
      intro r hr
      have := h r hr
      simp only [decide_eq_true_eq] at this ⊢
      exact fun hc => this hc.1
    rw [hnone]

/-- Witness for C10: the empty store has no row for device `"ABC"`, is
reported disabled for it, and yields no push info. -/
theorem claim_C10_witness :
    ({} : StoreState).is_disabled { enroll_type := .Device, id := "ABC", parent_id := none }
        = true
  ∧ ({} : StoreState).get_push_info { enroll_type := .Device, id := "ABC", parent_id := none }
        = none :=
  claim_C10 {} { enroll_type := .Device, id := "ABC", parent_id := none } rfl

/-- C3: for every resolved enrollment id, processing an `Authenticate`
message succeeds and leaves the store with the bootstrap token for that id
deleted, the command queue for that id empty (size 0), `IsDisabled(id)`
true, and the enrollment row upserted with the message's topic. -/
theorem claim_C3 (st : StoreState) (req : Request) (msg : Authenticate) (now : Nat)
    (id : EnrollId) (h : req.enroll_id = some id) :
    ∃ st', nano_authenticate st req msg now = .ok st'
      ∧ st'.get_bootstrap_token id = none
      ∧ (st'.commands.filter (fun r => r.enrollment_id = id.id)).length = 0
      ∧ st'.is_disabled id = true
      ∧ ∃ row, st'.findEnrollment id.id = some row ∧ row.topic = msg.topic := by
  refine ⟨(st.delete_bootstrap_token id).store_authenticate id msg now, ?_, ?_, ?_, ?_, ?_⟩
  · rw [nano_authenticate, h]
  · rw [StoreState.get_bootstrap_token, store_authenticate_bootstrap]
    have := get_bootstrap_token_after_delete st id
    rw [StoreState.get_bootstrap_token] at this
    exact this
  · exact store_authenticate_queue _ id msg now
  · obtain ⟨row, hrow, _, hd⟩ := findEnrollment_store_authenticate
      (st.delete_bootstrap_token id) id msg now
    rw [StoreState.is_disabled, hrow]
    simpa using hd
  · obtain ⟨row, hrow, ht, _⟩ := findEnrollment_store_authenticate
      (st.delete_bootstrap_token id) id msg now
    exact ⟨row, hrow, ht⟩

/-- Witness for C3 at a concrete input: a store holding a bootstrap token,
three queued commands and an enabled enrollment row for device `"ABC"`,
authenticated again with topic `"com.apple.mgmt.T"`. -/
theorem claim_C3_witness :
    ∃ st', nano_authenticate
        { enrollments := [{ id := "ABC", enroll_type := .Device, device_id := some "ABC",
                            parent_id := none, topic := "old", push_magic := some "M",
                            push_token := some [1, 2], disabled := false,
                            authenticate_raw := none, token_update_raw := none,
                            created_at := 0, updated_at := 0 }]
          commands := [{ enrollment_id := "ABC", uuid := "U1", command := [1],
                         status := "Pending", result := none, created_at := 0 },
                       { enrollment_id := "ABC", uuid := "U2", command := [2],
                         status := "Pending", result := none, created_at := 1 },
                       { enrollment_id := "ABC", uuid := "U3", command := [3],
                         status := "Pending", result := none, created_at := 2 }]
          bootstrap_tokens := [("ABC", [9, 9])]
          cert_auth := [] }
        { enroll_id := some { enroll_type := .Device, id := "ABC", parent_id := none },
          certificate := none }
        { enrollment := {}, topic := "com.apple.mgmt.T", raw := [7] } 5
      = .ok st'
      ∧ st'.get_bootstrap_token { enroll_type := .Device, id := "ABC", parent_id := none }
          = none
      ∧ (st'.commands.filter (fun r => r.enrollment_id = "ABC")).length = 0
      ∧ st'.is_disabled { enroll_type := .Device, id := "ABC", parent_id := none } = true
      ∧ ∃ row, st'.findEnrollment "ABC" = some row ∧ row.topic = "com.apple.mgmt.T" :=
  claim_C3 _ _ _ 5 { enroll_type := .Device, id := "ABC", parent_id := none } rfl

/-- C2: the cert-auth wrapper pins the enrollment certificate. On an
`Authenticate` carrying a certificate (with a resolved id), the operation
succeeds and afterwards `HasCertAuth(id, cert_hash cert)` holds. For every
other message — `certauth_guard` is the shape shared by all
non-`Authenticate` operations — with a resolved id, a missing certificate
or a certificate whose hash is not associated yields the corresponding
unauthorized error, and the result is independent of the inner service's
outcome `inner` (the inner service is not invoked). -/
theorem claim_C2 :
    (∀ (st : StoreState) (req : Request) (msg : Authenticate) (now : Nat)
        (id : EnrollId) (cert : List Nat),
        req.enroll_id = some id → req.certificate = some cert →
        ∃ st', certauth_authenticate st req msg now = .ok st'
          ∧ st'.has_cert_auth id (cert_hash cert) = true)
  ∧ (∀ (α : Type) (st : StoreState) (req : Request) (id : EnrollId)
        (inner : Except ServiceError α),
        req.enroll_id = some id → req.certificate = none →
        certauth_guard st req inner = .error .noCertificate)
  ∧ (∀ (α : Type) (st : StoreState) (req : Request) (id : EnrollId) (cert : List Nat)
        (inner : Except ServiceError α),
        req.enroll_id = some id → req.certificate = some cert →
        st.has_cert_auth id (cert_hash cert) = false →
        certauth_guard st req inner = .error .certNotAuthorized) := by
  refine ⟨?_, ?_, ?_⟩
  · intro st req msg now id cert hid hcert
    refine ⟨((st.associate_cert id (cert_hash cert)).delete_bootstrap_token
        id).store_authenticate id msg now, ?_, ?_⟩
    · simp only [certauth_authenticate, hid, hcert, nano_authenticate]
    · have hca : (((st.associate_cert id (cert_hash cert)).delete_bootstrap_token
          id).store_authenticate id msg now).cert_auth
          = st.cert_auth ++ [{ enrollment_id := id.id, cert_hash := cert_hash cert }] := rfl
      rw [StoreState.has_cert_auth, hca, List.any_append]
      simp
  · intro α st req id inner hid hcert
    simp only [certauth_guard, validate_cert, hid, hcert]
  · intro α st req id cert inner hid hcert hno
    simp only [certauth_guard, validate_cert, hid, hcert, hno]
    simp

/-- Witness for C2 at concrete inputs: authenticating device `"ABC"` with
certificate bytes `[1, 2, 3]` binds its hash; a cert-less request and a
request with the unassociated certificate `[9]` on the empty store are both
rejected. -/
theorem claim_C2_witness :
    (∃ st', certauth_authenticate {}
        { enroll_id := some { enroll_type := .Device, id := "ABC", parent_id := none },
          certificate := some [1, 2, 3] }
        { enrollment := {}, topic := "com.apple.mgmt.T", raw := [] } 0 = .ok st'
      ∧ st'.has_cert_auth { enroll_type := .Device, id := "ABC", parent_id := none }
          (cert_hash [1, 2, 3]) = true)
  ∧ certauth_guard (α := Unit) {}
      { enroll_id := some { enroll_type := .Device, id := "ABC", parent_id := none },
        certificate := none } (.ok ()) = .error .noCertificate
  ∧ certauth_guard (α := Unit) {}
      { enroll_id := some { enroll_type := .Device, id := "ABC", parent_id := none },
        certificate := some [9] } (.ok ()) = .error .certNotAuthorized :=
  ⟨claim_C2.1 {} _ _ 0 { enroll_type := .Device, id := "ABC", parent_id := none }
      [1, 2, 3] rfl rfl,
   claim_C2.2.1 Unit {} _ { enroll_type := .Device, id := "ABC", parent_id := none }
      (.ok ()) rfl rfl,
   claim_C2.2.2 Unit {} _ { enroll_type := .Device, id := "ABC", parent_id := none }
      [9] (.ok ()) rfl rfl rfl⟩

/-- Counterexample to C5 as stated: a report with non-empty
`command_uuid = "U"` and status `Idle`. The claim requires `StoreResult` to
be skipped (status is `Idle`), but the handler guards only on the UUID being
non-empty: the stored row comes back with status `"Idle"` and a recorded
result — the post-state differs from the pre-state exactly by the
`StoreResult` update. -/
theorem claim_C5_counterexample :
    nano_command_and_report_results (fun _ => none)
        { commands := [{ enrollment_id := "ABC", uuid := "U", command := [1],
                         status := "Pending", result := none, created_at := 0 }] }
        { enroll_id := some { enroll_type := .Device, id := "ABC", parent_id := none } }
        { enrollment := {}, command_uuid := "U", status := .Idle, raw := [] }
      = .ok (none,
          { commands := [{ enrollment_id := "ABC", uuid := "U", command := [1],
                           status := "Idle", result := some [], created_at := 0 }] })
    ∧ ("Idle" : String) ≠ "Pending" := by
  exact ⟨rfl, by simp⟩

/-- Characterization of a successful `command_and_report_results` call:
the post-state is the `store_result` update exactly when the reported UUID
is non-empty (and the pre-state otherwise), and the returned value is the
parse of the post-state's oldest pending command, or empty. -/
theorem nano_ccr_characterization (parse : List Nat → Option Command) (st : StoreState) (req : Request)
    (res : CommandResults) (id : EnrollId) (h : req.enroll_id = some id)
    (out : Option Command) (st' : StoreState)
    (hok : nano_command_and_report_results parse st req res = .ok (out, st')) :
    (res.command_uuid ≠ "" → st' = st.store_result id res)
  ∧ (res.command_uuid = "" → st' = st)
  ∧ (match st'.next_command id with
     | none => out = none
     | some q => ∃ c, parse q.command = some c ∧ out = some c) := by
  simp only [nano_command_and_report_results, h] at hok
  by_cases hu : res.command_uuid = ""
  · rw [if_neg (fun hc => hc hu)] at hok
    cases hnc : st.next_command id with
    | none =>
      simp only [hnc, Except.ok.injEq, Prod.mk.injEq] at hok
      obtain ⟨hout, hst⟩ := hok
      subst hst
      refine ⟨fun hc => absurd hu hc, fun _ => rfl, ?_⟩
      rw [hnc]
      exact hout.symm
    | some q =>
      simp only [hnc] at hok
      cases hp : parse q.command with
      | none => simp [hp] at hok
      | some c =>
        simp only [hp, Except.ok.injEq, Prod.mk.injEq] at hok
        obtain ⟨hout, hst⟩ := hok
        subst hst
        refine ⟨fun hc => absurd hu hc, fun _ => rfl, ?_⟩
        rw [hnc]
        exact ⟨c, hp, hout.symm⟩
  · rw [if_pos hu] at hok
    cases hnc : (st.store_result id res).next_command id with
    | none =>
      simp only [hnc, Except.ok.injEq, Prod.mk.injEq] at hok
      obtain ⟨hout, hst⟩ := hok
      subst hst
      refine ⟨fun _ => rfl, fun hc => absurd hc hu, ?_⟩
      rw [hnc]
      exact hout.symm
    | some q =>
      simp only [hnc] at hok
      cases hp : parse q.command with
      | none => simp [hp] at hok
      | some c =>
        simp only [hp, Except.ok.injEq, Prod.mk.injEq] at hok
        obtain ⟨hout, hst⟩ := hok
        subst hst
        refine ⟨fun _ => rfl, fun hc => absurd hc hu, ?_⟩
        rw [hnc]
        exact ⟨c, hp, hout.symm⟩

/-- C5 (amended): `StoreResult` is invoked iff the report's `command_uuid`
is non-empty — the status is *not* consulted (an `Idle` report with a
non-empty UUID is stored too); in all cases the handler then fetches the
oldest `Pending` command of the (possibly updated) store, parses its blob,
and returns it, or empty when no `Pending` row remains. -/
theorem claim_C5 (parse : List Nat → Option Command) (st : StoreState) (req : Request)
    (res : CommandResults) (id : EnrollId) (h : req.enroll_id = some id)
    (out : Option Command) (st' : StoreState)
    (hok : nano_command_and_report_results parse st req res = .ok (out, st')) :
    (res.command_uuid ≠ "" → st' = st.store_result id res)
  ∧ (res.command_uuid = "" → st' = st)
  ∧ (match st'.next_command id with
     | none => out = none
     | some q => ∃ c, parse q.command = some c ∧ out = some c) :=
  nano_ccr_characterization parse st req res id h out st' hok

/-- Witness for C5 (amended) at a concrete input: the non-empty
`Acknowledged` report for `"U1"` is stored and the remaining pending command
`"U2"` is parsed and returned. -/
theorem claim_C5_witness :
    (exResC5.command_uuid ≠ "" →
        exStoreC5.store_result exIdABC exResC5 = exStoreC5.store_result exIdABC exResC5)
  ∧ (exResC5.command_uuid = "" → exStoreC5.store_result exIdABC exResC5 = exStoreC5)
  ∧ (match (exStoreC5.store_result exIdABC exResC5).next_command exIdABC with
     | none =>
        (some { command_uuid := "U2",
                command := { request_type := "DeviceInformation" } } : Option Command) = none
     | some q => ∃ c, exParseC5 q.command = some c
          ∧ (some { command_uuid := "U2",
                    command := { request_type := "DeviceInformation" } } : Option Command)
              = some c) :=
  claim_C5 exParseC5 exStoreC5 exReqABC exResC5 exIdABC rfl
    (some { command_uuid := "U2", command := { request_type := "DeviceInformation" } })
    (exStoreC5.store_result exIdABC exResC5) rfl

/-- Counterexample to C1 as stated: with one pending command `"U"` for
device `"ABC"`, an idle device poll (empty `CommandUUID`, status `Idle`)
delivers command `"U"` and returns the store *unchanged* — so repeating the
identical poll is the very same call and again returns command `"U"`, not an
empty response, and both polls' inner `next_command` calls return the uuid
`"U"` with no `StoreResult` in between. -/
theorem claim_C1_counterexample :
    nano_command_and_report_results exParseC1 exStoreC1 exReqABC exIdlePoll
        = .ok (some { command_uuid := "U",
                      command := { request_type := "DeviceInformation" } }, exStoreC1)
  ∧ (exStoreC1.next_command exIdABC).map (fun q => q.uuid) = some "U"
  ∧ (some { command_uuid := "U", command := { request_type := "DeviceInformation" } }
      : Option Command) ≠ none := by
  exact ⟨rfl, rfl, by simp⟩

/-- C1 (amended): `next_command` does not mark delivery, so a queued
command is *redelivered* on every poll until a result is stored for it: an
idle poll (empty `CommandUUID`) leaves the store unchanged (hence the
identical repeated poll returns the same command again, not an empty
response); and once `StoreResult` records a report for a uuid, every later
`next_command` returns only other uuids (all reportable statuses are
non-`Pending`). -/
theorem claim_C1 :
    (∀ (parse : List Nat → Option Command) (st : StoreState) (req : Request)
        (res : CommandResults) (id : EnrollId) (out : Option Command) (st' : StoreState),
        req.enroll_id = some id → res.command_uuid = "" →
        nano_command_and_report_results parse st req res = .ok (out, st') →
        st' = st)
  ∧ (∀ (st : StoreState) (id : EnrollId) (res : CommandResults) (q : QueuedCommand),
        (st.store_result id res).next_command id = some q → q.uuid ≠ res.command_uuid) := by
  constructor
  · intro parse st req res id out st' h hu hok
    exact (nano_ccr_characterization parse st req res id h out st' hok).2.1 hu
  · exact next_command_after_store_result

/-- Witness for C1 (amended) at concrete inputs: the idle poll on the
single-command store leaves it unchanged, and after storing the
`Acknowledged` report for `"U1"` the next command returned is `"U2"`,
whose uuid differs from `"U1"`. -/
theorem claim_C1_witness :
    exStoreC1 = exStoreC1
  ∧ ({ uuid := "U2", command := [2], created_at := 1 } : QueuedCommand).uuid ≠ "U1" :=
  ⟨claim_C1.1 exParseC1 exStoreC1 exReqABC exIdlePoll exIdABC
      (some { command_uuid := "U", command := { request_type := "DeviceInformation" } })
      exStoreC1 rfl rfl rfl,
   claim_C1.2 exStoreC5 exIdABC exResC5
      { uuid := "U2", command := [2], created_at := 1 } rfl⟩

/-- The enqueue loop appends exactly the `rowsFor` rows to the commands
table. -/
theorem enqueueAll_commands (body : List Nat) (uuids : Nat → String) (now : Nat) :
    ∀ (l : List String) (st : StoreState) (k : Nat),
      (enqueueAll body uuids now st l k).commands
        = st.commands ++ rowsFor body uuids now l k := by
  intro l
  induction l with
  | nil => intro st k; simp [enqueueAll, rowsFor]
  | cons s rest ih =>
    intro st k
    rw [enqueueAll, rowsFor, ih]
    simp [StoreState.enqueue_command]

/-- The appended rows' enrollment ids are exactly the listed ids, in
order. -/
theorem rowsFor_map_id (body : List Nat) (uuids : Nat → String) (now : Nat) :
    ∀ (l : List String) (k : Nat),
      (rowsFor body uuids now l k).map (fun r => r.enrollment_id) = l := by
  intro l
  induction l with
  | nil => intro k; simp [rowsFor]
  | cons s rest ih => intro k; simp [rowsFor, ih]

/-- Every appended row is a fresh `Pending` row carrying the raw body. -/
theorem rowsFor_fields (body : List Nat) (uuids : Nat → String) (now : Nat) :
    ∀ (l : List String) (k : Nat) (r : CommandRow), r ∈ rowsFor body uuids now l k →
      r.status = "Pending" ∧ r.command = body ∧ r.created_at = now := by
  intro l
  induction l with
  | nil => intro k r hr; simp [rowsFor] at hr
  | cons s rest ih =>
    intro k r hr
    rw [rowsFor] at hr
    cases hr with
    | head => exact ⟨rfl, rfl, rfl⟩
    | tail _ hr => exact ih (k + 1) r hr

/-- Counterexample to C8 as stated: enqueueing body `[7]` (whose plist
parses to a command with `CommandUUID = "BODY-UUID"`) for the single id
`"ABC"`, with the generated row UUID being `"ROWUUID"`. The inserted row
carries the freshly generated `"ROWUUID"`, but the response carries the
body's own `"BODY-UUID"` — not the newly generated row UUID. -/
theorem claim_C8_counterexample :
    enqueue_inner exParseC8 {} "ABC" [7] (fun _ => "ROWUUID") 3
      = .ok ({ command_uuid := "BODY-UUID", request_type := "DeviceInformation" },
             { commands := [{ enrollment_id := "ABC", uuid := "ROWUUID", command := [7],
                              status := "Pending", result := none, created_at := 3 }] })
    ∧ ("BODY-UUID" : String) ≠ "ROWUUID" := by
  exact ⟨rfl, by simp⟩

/-- C8 (amended): for every enqueue request whose body parses as a command
plist, exactly one `Pending` command row is inserted per listed
(comma-separated, trimmed) id — each row with its own freshly generated row
UUID, the raw body as blob and the request timestamp — and the response
carries the `CommandUUID` parsed from the body together with the command's
`RequestType` (not the newly generated row UUIDs). -/
theorem claim_C8 (parse : List Nat → Option Command) (st : StoreState) (ids : String)
    (body : List Nat) (uuids : Nat → String) (now : Nat) (cmd : Command)
    (h : parse body = some cmd) :
    ∃ st', enqueue_inner parse st ids body uuids now
        = .ok ({ command_uuid := cmd.command_uuid,
                 request_type := cmd.command.request_type }, st')
      ∧ st'.commands = st.commands
          ++ rowsFor body uuids now ((splitOnComma ids.data).map (fun cs => strTrim ⟨cs⟩)) 0
      ∧ (rowsFor body uuids now ((splitOnComma ids.data).map (fun cs => strTrim ⟨cs⟩)) 0).map
            (fun r => r.enrollment_id)
          = (splitOnComma ids.data).map (fun cs => strTrim ⟨cs⟩)
      ∧ ∀ r ∈ rowsFor body uuids now ((splitOnComma ids.data).map (fun cs => strTrim ⟨cs⟩)) 0,
          r.status = "Pending" ∧ r.command = body ∧ r.created_at = now := by
  refine ⟨enqueueAll body uuids now st
      ((splitOnComma ids.data).map (fun cs => strTrim ⟨cs⟩)) 0, ?_, ?_, ?_, ?_⟩
  · simp only [enqueue_inner, h]
  · exact enqueueAll_commands body uuids now _ st 0
  · exact rowsFor_map_id body uuids now _ 0
  · exact rowsFor_fields body uuids now _ 0

/-- Witness for C8 (amended) at a concrete input: ids `"A, B"`, body `[7]`
parsing to `"BODY-UUID"`/`DeviceInformation`, row-UUID supply
`exUuids`, timestamp 3. -/
theorem claim_C8_witness :
    ∃ st', enqueue_inner exParseC8 {} "A, B" [7] exUuids 3
        = .ok ({ command_uuid := "BODY-UUID", request_type := "DeviceInformation" }, st')
      ∧ st'.commands = StoreState.commands {}
          ++ rowsFor [7] exUuids 3 ((splitOnComma ("A, B" : String).data).map
              (fun cs => strTrim ⟨cs⟩)) 0
      ∧ (rowsFor [7] exUuids 3 ((splitOnComma ("A, B" : String).data).map
              (fun cs => strTrim ⟨cs⟩)) 0).map (fun r => r.enrollment_id)
          = (splitOnComma ("A, B" : String).data).map (fun cs => strTrim ⟨cs⟩)
      ∧ ∀ r ∈ rowsFor [7] exUuids 3 ((splitOnComma ("A, B" : String).data).map
              (fun cs => strTrim ⟨cs⟩)) 0,
          r.status = "Pending" ∧ r.command = [7] ∧ r.created_at = 3 :=
  claim_C8 exParseC8 {} "A, B" [7] exUuids 3
    { command_uuid := "BODY-UUID", command := { request_type := "DeviceInformation" } } rfl

/-- Splitting on a separator peels off a separator-free prefix. -/
theorem splitOnCharL_append (c : Char) :
    ∀ (l1 l2 : List Char), c ∉ l1 →
      splitOnCharL c (l1 ++ c :: l2) = l1 :: splitOnCharL c l2 := by
  intro l1
  induction l1 with
  | nil =>
    intro l2 _
    rw [List.nil_append, splitOnCharL]
    simp
  | cons a t ih =>
    intro l2 h
    have ha : ¬(a = c) := fun hEq => h (hEq ▸ List.mem_cons_self a t)
    rw [List.cons_append, splitOnCharL, ih l2 (fun hm => h (List.mem_cons_of_mem a hm))]
    simp [ha]

/-- Line decomposition of the allowlist pass-line loop followed by any
tail whose own line decomposition is known. -/
theorem splitOnCharL_passLines (B : List Char) (done : List (List Char))
    (hB : splitOnCharL '\n' B = done) :
    ∀ ips : List String, (∀ ip ∈ ips, '\n' ∉ ip.data) →
      splitOnCharL '\n' ((passLines ips).data ++ B)
        = ips.map (fun ip => ("pass out quick to " ++ ip).data) ++ done := by
  intro ips
  induction ips with
  | nil =>
    intro _
    rw [passLines]
    simpa using hB
  | cons ip rest ih =>
    intro h
    have hnl : '\n' ∉ ("pass out quick to " ++ ip).data := by
      rw [String.data_append]
      intro hm
      cases List.mem_append.mp hm with
      | inl hm => exact absurd hm (by decide)
      | inr hm => exact h ip (List.mem_cons_self ip rest) hm
    have hdata : (passLines (ip :: rest)).data
        = ("pass out quick to " ++ ip).data ++ '\n' :: (passLines rest).data := by
      rw [passLines]
      rw [String.data_append, String.data_append, String.data_append]
      simp
    rw [hdata, List.append_assoc, List.cons_append, splitOnCharL_append '\n' _ _ hnl]
    rw [ih (fun q hm => h q (List.mem_cons_of_mem ip hm))]
    simp

/-- Counterexample to C9 as stated: for the allowlist policy resolved to the
single IP `1.2.3.4`, the generated rule text is exactly one pass line and
two `block out` lines — it contains no `block drop` rule (the claim requires
a terminating block-drop rule) and only a single `pass` occurrence (the
claim requires additional hard-coded allowlist pass lines for loopback,
DNS, DHCP and always-allow CIDRs). -/
theorem claim_C9_counterexample :
    generate_rules_resolved (.Allowlist ["example.com"]) ["1.2.3.4"]
      = "pass out quick to 1.2.3.4\nblock out quick proto tcp\nblock out quick proto udp\n"
  ∧ countOccs "block drop"
      (generate_rules_resolved (.Allowlist ["example.com"]) ["1.2.3.4"]) = 0
  ∧ countOccs "pass"
      (generate_rules_resolved (.Allowlist ["example.com"]) ["1.2.3.4"]) = 1 := by
  exact ⟨rfl, by decide, by decide⟩

/-- C9 (amended): for every allowlist website policy and resolved IP list
(newline-free IP strings), the generated rule text consists of exactly one
`pass out quick to <ip>` line per resolved IP — with no additional
hard-coded allowlist lines — terminated by the two rules
`block out quick proto tcp` and `block out quick proto udp` (plain `block`,
one rule per protocol, rather than a single `block drop … proto {tcp, udp}`
rule). -/
theorem claim_C9 (ds ips : List String) (h : ∀ ip ∈ ips, '\n' ∉ ip.data) :
    splitOnCharL '\n' (generate_rules_resolved (.Allowlist ds) ips).data
      = ips.map (fun ip => ("pass out quick to " ++ ip).data)
        ++ ["block out quick proto tcp".data, "block out quick proto udp".data, []] := by
  have hg : generate_rules_resolved (.Allowlist ds) ips
      = passLines ips ++ "block out quick proto tcp\n" ++ "block out quick proto udp\n" := rfl
  have hdata : (generate_rules_resolved (.Allowlist ds) ips).data
      = (passLines ips).data ++ ("block out quick proto tcp\nblock out quick proto udp\n"
          : String).data := by
    rw [hg, String.data_append, String.data_append, List.append_assoc]
    rfl
  rw [hdata]
  exact splitOnCharL_passLines _ _ (by decide) ips h

/-- Witness for C9 (amended) at a concrete input: two resolved IPs. -/
theorem claim_C9_witness :
    splitOnCharL '\n'
        (generate_rules_resolved (.Allowlist ["a.com", "b.org"])
          ["1.2.3.4", "5.6.7.8"]).data
      = (["1.2.3.4", "5.6.7.8"] : List String).map
          (fun ip => ("pass out quick to " ++ ip).data)
        ++ ["block out quick proto tcp".data, "block out quick proto udp".data, []] :=
  claim_C9 ["a.com", "b.org"] ["1.2.3.4", "5.6.7.8"] (by decide)

/-- C6: for every period `(start, stop, days)` and local wall-clock time
(all zero-padded `"HH:MM"` values), the period is active iff the current
weekday is in `days` (or `days` is empty) and, when `start ≤ stop`,
`start ≤ t ≤ stop`, while when `start > stop` (midnight-crossing),
`t ≥ start ∨ t ≤ stop`, with all time comparisons being minute-of-day
comparisons; in particular for `start = "22:00"`, `stop = "06:00"` the
schedule is active at `"23:00"` and `"05:00"` and inactive at `"10:00"`,
on every weekday value. -/
theorem claim_C6 :
    (∀ (sh sm eh em th tm : Nat) (days : List Nat) (day : Nat),
        sh < 24 → sm < 60 → eh < 24 → em < 60 → th < 24 → tm < 60 →
        (periodActive { start := fmtHM sh sm, stop := fmtHM eh em, days := days }
            (fmtHM th tm) day = true
          ↔ ((days = [] ∨ day ∈ days) ∧
              (if sh * 60 + sm ≤ eh * 60 + em
               then sh * 60 + sm ≤ th * 60 + tm ∧ th * 60 + tm ≤ eh * 60 + em
               else sh * 60 + sm ≤ th * 60 + tm ∨ th * 60 + tm ≤ eh * 60 + em))))
  ∧ (∀ day : Nat, Schedule.is_active
        { periods := [{ start := "22:00", stop := "06:00", days := [] }] } "23:00" day = true)
  ∧ (∀ day : Nat, Schedule.is_active
        { periods := [{ start := "22:00", stop := "06:00", days := [] }] } "05:00" day = true)
  ∧ (∀ day : Nat, Schedule.is_active
        { periods := [{ start := "22:00", stop := "06:00", days := [] }] } "10:00" day
          = false) := by
  refine ⟨?_, ?_, ?_, ?_⟩
  · intro sh sm eh em th tm days day hsh hsm heh hem hth htm
    show ((days.isEmpty || days.contains day) &&
        (if strLeb (fmtHM sh sm) (fmtHM eh em) then
          strLeb (fmtHM sh sm) (fmtHM th tm) && strLeb (fmtHM th tm) (fmtHM eh em)
        else
          strLeb (fmtHM sh sm) (fmtHM th tm) || strLeb (fmtHM th tm) (fmtHM eh em))) = true
      ↔ _
    have hdays : (days.isEmpty || days.contains day) = true ↔ (days = [] ∨ day ∈ days) := by
      simp
    by_cases hse : strLeb (fmtHM sh sm) (fmtHM eh em) = true
    · have hle : sh * 60 + sm ≤ eh * 60 + em :=
        (strLeb_fmtHM sh sm eh em (by omega) hsm (by omega) hem).mp hse
      rw [if_pos hse, if_pos hle, Bool.and_eq_true, hdays, Bool.and_eq_true,
          strLeb_fmtHM sh sm th tm (by omega) hsm (by omega) htm,
          strLeb_fmtHM th tm eh em (by omega) htm (by omega) hem]
    · have hgt : ¬(sh * 60 + sm ≤ eh * 60 + em) := fun hle =>
        hse ((strLeb_fmtHM sh sm eh em (by omega) hsm (by omega) hem).mpr hle)
      rw [if_neg hse, if_neg hgt, Bool.and_eq_true, hdays, Bool.or_eq_true,
          strLeb_fmtHM sh sm th tm (by omega) hsm (by omega) htm,
          strLeb_fmtHM th tm eh em (by omega) htm (by omega) hem]
  · intro day
    simp only [Schedule.is_active, List.any_cons, List.any_nil, Bool.or_false, periodActive,
      List.isEmpty_nil, Bool.true_or, Bool.true_and]
    decide
  · intro day
    simp only [Schedule.is_active, List.any_cons, List.any_nil, Bool.or_false, periodActive,
      List.isEmpty_nil, Bool.true_or, Bool.true_and]
    decide
  · intro day
    simp only [Schedule.is_active, List.any_cons, List.any_nil, Bool.or_false, periodActive,
      List.isEmpty_nil, Bool.true_or, Bool.true_and]
    decide

/-- Witness for C6 at a concrete input: the midnight-crossing period
`22:00–06:00` on all weekdays, evaluated at `23:00` on weekday 3. -/
theorem claim_C6_witness :
    periodActive { start := fmtHM 22 0, stop := fmtHM 6 0, days := [] } (fmtHM 23 0) 3 = true
      ↔ ((([] : List Nat) = [] ∨ 3 ∈ ([] : List Nat)) ∧
          (if 22 * 60 + 0 ≤ 6 * 60 + 0
           then 22 * 60 + 0 ≤ 23 * 60 + 0 ∧ 23 * 60 + 0 ≤ 6 * 60 + 0
           else 22 * 60 + 0 ≤ 23 * 60 + 0 ∨ 23 * 60 + 0 ≤ 6 * 60 + 0)) :=
  claim_C6.1 22 0 6 0 23 0 [] 3 (by decide) (by decide) (by decide) (by decide)
    (by decide) (by decide)

end Moonstone
